import Mathlib

/-!
Shallow embedding of the `company_catalog` repository (src/app/models.py,
src/app/schemas.py, src/app/crud.py).

The persistence store is modelled as an explicit state value `DB` holding the
four entity tables and the `organization_activity` link table, each a list in
store (insertion) order, together with the auto-increment counters that the
store uses to assign primary keys (starting at 1, as relational
auto-increment columns do).  Every CRUD function from src/app/crud.py takes
the state and returns its result paired with the (possibly updated) state,
mirroring the `db: Session` parameter.  Python ints are `Int`, Python floats
(coordinates, distances) are `Rat`, Python strings are `String`.

The two external collaborators that the CRUD layer calls into are modelled
as follows:
* `geopy.distance.geodesic(...).km` is abstracted as an explicit distance
  function parameter `dist : Rat × Rat → Rat × Rat → Rat`; the theorems about
  the radius query hold for every such function (nonnegativity, a property of
  geodesic distance, is taken as a hypothesis where needed).
* the SQL engine's `lower()` / `ILIKE` pattern matching is modelled by
  `charLower` / `likeMatch` below (standard SQL LIKE semantics: `%` matches
  any sequence, `_` matches any single character, other characters match
  themselves; case folding covers the ASCII and Cyrillic alphabets the data
  uses).
-/

/-- Row of the `buildings` table (src/app/models.py, class Building). -/
structure Building where
  id : Int
  address : String
  latitude : Rat
  longitude : Rat
deriving DecidableEq, Repr

/-- Row of the `activities` table (src/app/models.py, class Activity). -/
structure Activity where
  id : Int
  name : String
  parent_id : Option Int
  level : Nat
deriving DecidableEq, Repr

/-- Row of the `organizations` table (src/app/models.py, class Organization). -/
structure Organization where
  id : Int
  name : String
  building_id : Int
deriving DecidableEq, Repr

/-- Row of the `phones` table (src/app/models.py, class Phone). -/
structure Phone where
  id : Int
  number : String
  organization_id : Int
deriving DecidableEq, Repr

/-- Row of the `organization_activity` link table (src/app/models.py). -/
structure Link where
  organization_id : Int
  activity_id : Int
deriving DecidableEq, Repr

/-- The persistence store state: the four entity tables and the link table in
store order, plus the auto-increment counters for primary keys. -/
structure DB where
  buildings : List Building
  activities : List Activity
  organizations : List Organization
  phones : List Phone
  organization_activity : List Link
  nextBuildingId : Int
  nextActivityId : Int
  nextOrganizationId : Int
  nextPhoneId : Int
deriving DecidableEq, Repr

/-- The freshly initialized store (empty tables, counters at 1). -/
def emptyDB : DB :=
  { buildings := [], activities := [], organizations := [], phones := []
    organization_activity := [], nextBuildingId := 1, nextActivityId := 1
    nextOrganizationId := 1, nextPhoneId := 1 }

/-- Request body for POST /activities (src/app/schemas.py, ActivityCreate). -/
structure ActivityCreate where
  name : String
  parent_id : Option Int
deriving DecidableEq, Repr

/-- Request body for POST /buildings (src/app/schemas.py, BuildingCreate). -/
structure BuildingCreate where
  address : String
  latitude : Rat
  longitude : Rat
deriving DecidableEq, Repr

/-- Request body for POST /organizations (src/app/schemas.py,
OrganizationCreate). -/
structure OrganizationCreate where
  name : String
  building_id : Int
  phone_numbers : List String
  activity_ids : List Int
deriving DecidableEq, Repr

/-- crud.get_building: first building with the given id, state unchanged. -/
def get_building (db : DB) (building_id : Int) : Option Building × DB :=
  (db.buildings.find? (fun b => decide (b.id = building_id)), db)

/-- crud.get_buildings: pagination by offset/limit over store order. -/
def get_buildings (db : DB) (skip : Nat) (limit : Nat) : List Building × DB :=
  ((db.buildings.drop skip).take limit, db)

/-- crud.get_organizations_in_building: equality filter on the foreign key. -/
def get_organizations_in_building (db : DB) (building_id : Int) :
    List Organization × DB :=
  (db.organizations.filter (fun o => decide (o.building_id = building_id)), db)

/-- crud.get_organization: first organization with the given id. -/
def get_organization (db : DB) (org_id : Int) : Option Organization × DB :=
  (db.organizations.find? (fun o => decide (o.id = org_id)), db)

/-- The nested helper `get_all_children` of crud.get_organizations_by_activity:
returns the activity itself followed by the recursively collected subtrees of
all activities whose `parent_id` equals its id.  The Python recursion carries
no fuel; here a fuel argument makes the recursion structural, and the caller
passes `db.activities.length`, which is enough fuel whenever the stored level
invariant holds (each chain of parent→child edges visits activities of
strictly increasing level, so its length is bounded by the table size). -/
def getAllChildren (db : DB) : Nat → Activity → List Activity
  | 0, act => [act]
  | fuel + 1, act =>
    act :: ((db.activities.filter
        (fun c => decide (c.parent_id = some act.id))).map
          (getAllChildren db fuel)).flatten

/-- crud.get_organizations_by_activity: if no activity has the given id,
returns the empty list; otherwise collects the activity's subtree, then
returns the organizations joined to the link table with a link whose
activity id is in the subtree.  The legacy SQLAlchemy `Query.all()` API
deduplicates full-entity rows by primary key, so the join is modelled as a
filter over the organizations table in store order (each organization at
most once, kept iff at least one of its links matches). -/
def get_organizations_by_activity (db : DB) (activity_id : Int) :
    List Organization × DB :=
  match db.activities.find? (fun a => decide (a.id = activity_id)) with
  | none => ([], db)
  | some activity =>
    let all_activities := getAllChildren db db.activities.length activity
    let activity_ids := all_activities.map Activity.id
    (db.organizations.filter (fun o =>
      db.organization_activity.any (fun l =>
        decide (l.organization_id = o.id) && decide (l.activity_id ∈ activity_ids))), db)

/-- crud.get_organizations_by_radius: keep the buildings whose distance from
the target point is at most `radius_km`, then return the organizations whose
`building_id` is among the kept buildings.  `dist` stands for
`geopy.distance.geodesic(...).km`. -/
def get_organizations_by_radius (dist : Rat × Rat → Rat × Rat → Rat)
    (db : DB) (lat lon radius_km : Rat) : List Organization × DB :=
  let target := (lat, lon)
  let filtered_building_ids :=
    (db.buildings.filter
      (fun b => decide (dist target (b.latitude, b.longitude) ≤ radius_km))).map Building.id
  (db.organizations.filter
    (fun o => decide (o.building_id ∈ filtered_building_ids)), db)

/-- crud.get_organizations_by_bbox: keep the buildings inside the inclusive
latitude/longitude rectangle, then return the organizations whose
`building_id` is among the kept buildings. -/
def get_organizations_by_bbox (db : DB) (min_lat max_lat min_lon max_lon : Rat) :
    List Organization × DB :=
  let building_ids :=
    (db.buildings.filter (fun b =>
      decide (min_lat ≤ b.latitude) && decide (b.latitude ≤ max_lat) &&
      decide (min_lon ≤ b.longitude) && decide (b.longitude ≤ max_lon))).map Building.id
  (db.organizations.filter
    (fun o => decide (o.building_id ∈ building_ids)), db)

/-- Modelled from the spec: the persistence store's `lower()` case folding
used by `ILIKE` (the SQL engine is an external collaborator; src never
implements it).  Covers the ASCII A–Z and Cyrillic А–Я/Ё alphabets the
repository's data uses; every other character is left unchanged. -/
def lowerPairs : List (Char × Char) :=
  [('A', 'a'), ('B', 'b'), ('C', 'c'), ('D', 'd'), ('E', 'e'), ('F', 'f'),
   ('G', 'g'), ('H', 'h'), ('I', 'i'), ('J', 'j'), ('K', 'k'), ('L', 'l'),
   ('M', 'm'), ('N', 'n'), ('O', 'o'), ('P', 'p'), ('Q', 'q'), ('R', 'r'),
   ('S', 's'), ('T', 't'), ('U', 'u'), ('V', 'v'), ('W', 'w'), ('X', 'x'),
   ('Y', 'y'), ('Z', 'z'),
   ('А', 'а'), ('Б', 'б'), ('В', 'в'), ('Г', 'г'), ('Д', 'д'), ('Е', 'е'),
   ('Ж', 'ж'), ('З', 'з'), ('И', 'и'), ('Й', 'й'), ('К', 'к'), ('Л', 'л'),
   ('М', 'м'), ('Н', 'н'), ('О', 'о'), ('П', 'п'), ('Р', 'р'), ('С', 'с'),
   ('Т', 'т'), ('У', 'у'), ('Ф', 'ф'), ('Х', 'х'), ('Ц', 'ц'), ('Ч', 'ч'),
   ('Ш', 'ш'), ('Щ', 'щ'), ('Ъ', 'ъ'), ('Ы', 'ы'), ('Ь', 'ь'), ('Э', 'э'),
   ('Ю', 'ю'), ('Я', 'я'), ('Ё', 'ё')]

/-- Lowercase one character (model of SQL `lower()` on one code point). -/
def charLower (c : Char) : Char :=
  ((lowerPairs.find? (fun p => decide (p.1 = c))).map Prod.snd).getD c

/-- Lowercase a character list (model of SQL `lower()`). -/
def sqlLower (s : List Char) : List Char := s.map charLower

/-- Modelled from the spec: the SQL engine's `LIKE` pattern matcher (external
collaborator).  `%` matches any sequence of characters (tried as every
suffix of the remaining text), `_` matches exactly one character, any other
pattern character matches itself.  First argument is the pattern, second the
text. -/
def likeMatch : List Char → List Char → Bool
  | [], t => t.isEmpty
  | c :: p, t =>
    if c = '%' then t.tails.any (fun t2 => likeMatch p t2)
    else
      match t with
      | [] => false
      | d :: t2 => (decide (c = '_') || decide (c = d)) && likeMatch p t2

/-- `ILIKE`: case-insensitive `LIKE` (both sides folded through `lower()`). -/
def ilikeTest (text pattern : String) : Bool :=
  likeMatch (sqlLower pattern.data) (sqlLower text.data)

/-- crud.get_organizations_by_name: `name ILIKE '%' || input || '%'` filter
over the organizations table. -/
def get_organizations_by_name (db : DB) (name : String) :
    List Organization × DB :=
  (db.organizations.filter (fun o => ilikeTest o.name ("%" ++ name ++ "%")), db)

/-- crud.create_building: persists unconditionally with a fresh id. -/
def create_building (db : DB) (building : BuildingCreate) : Building × DB :=
  let b : Building :=
    { id := db.nextBuildingId, address := building.address
      latitude := building.latitude, longitude := building.longitude }
  (b, { db with buildings := db.buildings ++ [b]
                nextBuildingId := db.nextBuildingId + 1 })

/-- The level computation and validation of crud.create_activity (lines
225–232).  Mirrors the Python `if activity.parent_id:` truthiness test
exactly: the parent lookup and both validations are skipped not only when
`parent_id` is absent but also when it equals 0 (falsy in Python), in which
case the level silently stays 0. -/
def create_activity_level (db : DB) (activity : ActivityCreate) :
    Except String Nat :=
  match activity.parent_id with
  | none => Except.ok 0
  | some p =>
    if p = 0 then Except.ok 0
    else
      match db.activities.find? (fun a => decide (a.id = p)) with
      | none => Except.error "Parent activity not found"
      | some parent =>
        if parent.level + 1 > 2 then Except.error "Maximum nesting level is 3"
        else Except.ok (parent.level + 1)

/-- crud.create_activity: validates the parent and the nesting level, then
persists the new activity.  A `ValueError` raise is modelled as
`Except.error`; the raise happens before anything is added to the session,
so on error the state is returned unchanged. -/
def create_activity (db : DB) (activity : ActivityCreate) :
    Except String Activity × DB :=
  match create_activity_level db activity with
  | Except.error e => (Except.error e, db)
  | Except.ok level =>
    let a : Activity :=
      { id := db.nextActivityId, name := activity.name
        parent_id := activity.parent_id, level := level }
    (Except.ok a, { db with activities := db.activities ++ [a]
                            nextActivityId := db.nextActivityId + 1 })

/-- crud.create_organization: persists the organization row, one phone row
per phone number, and links the organization to every existing activity
whose id occurs in `activity_ids` (unresolvable ids are silently dropped —
the `in_` filter simply does not return them; there is no validation that
the building exists). -/
def create_organization (db : DB) (org : OrganizationCreate) :
    Organization × DB :=
  let o : Organization :=
    { id := db.nextOrganizationId, name := org.name
      building_id := org.building_id }
  let newPhones :=
    (List.range org.phone_numbers.length).zip org.phone_numbers |>.map
      (fun pr => { id := db.nextPhoneId + pr.1, number := pr.2
                   organization_id := o.id : Phone })
  let activities :=
    db.activities.filter (fun a => decide (a.id ∈ org.activity_ids))
  let newLinks := activities.map
    (fun a => { organization_id := o.id, activity_id := a.id : Link })
  (o, { db with organizations := db.organizations ++ [o]
                phones := db.phones ++ newPhones
                organization_activity := db.organization_activity ++ newLinks
                nextOrganizationId := db.nextOrganizationId + 1
                nextPhoneId := db.nextPhoneId + org.phone_numbers.length })

/-- A parent→child edge of the stored activity tree: `x` is a stored
activity whose `parent_id` is `a`'s id. -/
def ChildStep (db : DB) (a x : Activity) : Prop :=
  x ∈ db.activities ∧ x.parent_id = some a.id

/-- `x` is `a` itself or a transitive descendant of `a` along stored
parent→child edges. -/
def Desc (db : DB) : Activity → Activity → Prop :=
  Relation.ReflTransGen (ChildStep db)

/-- The stored level invariant: a stored child's level is its stored
parent's level plus one. -/
def LevelInv (db : DB) : Prop :=
  ∀ a ∈ db.activities, ∀ b ∈ db.activities,
    b.parent_id = some a.id → b.level = a.level + 1

/-- The activity invariant exactly as the spec states it: an activity with a
parent reference has the (existing) parent's level plus one, an activity
without a parent reference has level 0, and every level is at most 2. -/
def StrongLevelInv (db : DB) : Prop :=
  ∀ a ∈ db.activities,
    (match a.parent_id with
     | some p => ∃ pa ∈ db.activities, pa.id = p ∧ a.level = pa.level + 1
     | none => a.level = 0)
    ∧ a.level ≤ 2

/-- Data states reachable from the empty store through the three create
operations of src/app/crud.py. -/
inductive Reachable : DB → Prop
  | empty : Reachable emptyDB
  | building (db : DB) (b : BuildingCreate) :
      Reachable db → Reachable (create_building db b).2
  | activity (db : DB) (a : ActivityCreate) :
      Reachable db → Reachable (create_activity db a).2
  | organization (db : DB) (o : OrganizationCreate) :
      Reachable db → Reachable (create_organization db o).2

/-- Concrete root activity (as seeded by src/scripts/seed.py). -/
def activityFood : Activity :=
  { id := 1, name := "Еда", parent_id := none, level := 0 }

/-- Concrete child activity of `activityFood`. -/
def activityMeat : Activity :=
  { id := 2, name := "Мясная продукция", parent_id := some 1, level := 1 }

/-- Concrete organization linked to `activityMeat` and housed in building 1. -/
def orgAcme : Organization :=
  { id := 1, name := "ООО Рога и Копыта", building_id := 1 }

/-- Concrete organization with no activity links, housed in building 2. -/
def orgAuto : Organization :=
  { id := 2, name := "Автосервис Скорость", building_id := 2 }

/-- Concrete building housing `orgAcme`. -/
def bldgMoscow : Building :=
  { id := 1, address := "г. Москва, ул. Ленина 1", latitude := 55, longitude := 37 }

/-- Concrete building housing `orgAuto`. -/
def bldgSpb : Building :=
  { id := 2, address := "г. Санкт-Петербург", latitude := 59, longitude := 30 }

/-- A small concrete data state (two buildings, a two-level activity tree,
two organizations, one organization–activity link), mirroring the seed
fixture. -/
def dbTree : DB :=
  { buildings := [bldgMoscow, bldgSpb]
    activities := [activityFood, activityMeat]
    organizations := [orgAcme, orgAuto]
    phones := []
    organization_activity := [{ organization_id := 1, activity_id := 2 }]
    nextBuildingId := 3, nextActivityId := 3, nextOrganizationId := 3
    nextPhoneId := 1 }

/-- Concrete organization named "abc", used for the name-search wildcard
counterexample. -/
def orgAbc : Organization := { id := 1, name := "abc", building_id := 1 }

/-- Concrete data state holding only `orgAbc`. -/
def dbAbc : DB :=
  { buildings := [], activities := [], organizations := [orgAbc], phones := []
    organization_activity := [], nextBuildingId := 1, nextActivityId := 1
    nextOrganizationId := 2, nextPhoneId := 1 }

/-- The state produced by calling create_activity on the empty store with a
parent id of 0: the Python truthiness test skips the parent validation, so
the call persists an activity with a dangling parent reference. -/
def dbBug : DB :=
  (create_activity emptyDB { name := "Торговля", parent_id := some 0 }).2

/-- A concrete nonnegative distance function (taxicab metric), used to
instantiate the abstract geodesic-distance parameter in witnesses. -/
def distTaxi (p q : Rat × Rat) : Rat := |p.1 - q.1| + |p.2 - q.2|

/-- Helper: with enough fuel (measured through the stored level invariant),
the fuel-indexed traversal `getAllChildren` computes exactly the
descendant-or-self closure of its starting activity. -/
theorem mem_getAllChildren (db : DB) (hl : LevelInv db) :
    ∀ (fuel : Nat) (act : Activity), act ∈ db.activities →
      (∀ b ∈ db.activities, b.level ≤ act.level + fuel) →
      ∀ x, x ∈ getAllChildren db fuel act ↔ Desc db act x := by
  intro fuel
  induction fuel with
  | zero =>
    intro act hact hbound x
    simp only [getAllChildren, List.mem_singleton]
    constructor
    · rintro rfl
      exact Relation.ReflTransGen.refl
    · intro h
      rcases Relation.ReflTransGen.cases_head h with h1 | ⟨c, ⟨hcm, hcp⟩, _⟩
      · exact h1.symm
      · have hc1 := hl act hact c hcm hcp
        have hc2 := hbound c hcm
        omega
  | succ fuel ih =>
    intro act hact hbound x
    simp only [getAllChildren, List.mem_cons, List.mem_flatten, List.mem_map]
    constructor
    · rintro (rfl | ⟨l, ⟨c, hc, rfl⟩, hx⟩)
      · exact Relation.ReflTransGen.refl
      · rw [List.mem_filter, decide_eq_true_iff] at hc
        obtain ⟨hcm, hcp⟩ := hc
        have hc1 := hl act hact c hcm hcp
        have hb2 : ∀ b ∈ db.activities, b.level ≤ c.level + fuel := by
          intro b hb
          have := hbound b hb
          omega
        exact Relation.ReflTransGen.head ⟨hcm, hcp⟩ ((ih c hcm hb2 x).mp hx)
    · intro h
      rcases Relation.ReflTransGen.cases_head h with h1 | ⟨c, ⟨hcm, hcp⟩, htail⟩
      · exact Or.inl h1.symm
      · right
        have hc1 := hl act hact c hcm hcp
        have hb2 : ∀ b ∈ db.activities, b.level ≤ c.level + fuel := by
          intro b hb
          have := hbound b hb
          omega
        refine ⟨getAllChildren db fuel c, ⟨c, ?_, rfl⟩, (ih c hcm hb2 x).mpr htail⟩
        rw [List.mem_filter, decide_eq_true_iff]
        exact ⟨hcm, hcp⟩

/-- Helper: when every stored level is at most 2, the table size is enough
fuel for the traversal started at any stored activity. -/
theorem level_bound_of_cap (db : DB) (hb : ∀ a ∈ db.activities, a.level ≤ 2)
    (act : Activity) (hact : act ∈ db.activities) :
    ∀ b ∈ db.activities, b.level ≤ act.level + db.activities.length := by
  intro b hbm
  rcases Nat.lt_or_ge db.activities.length 2 with hlt | hge
  · have hpos : 0 < db.activities.length :=
      List.length_pos.mpr (List.ne_nil_of_mem hact)
    have h1 : db.activities.length = 1 := by omega
    obtain ⟨a, ha⟩ := List.length_eq_one.mp h1
    rw [ha, List.mem_singleton] at hact hbm
    subst hact
    subst hbm
    exact Nat.le_add_right _ _
  · have := hb b hbm
    omega

/-- C10: every read/search operation of src/app/crud.py returns the data
state it was given unchanged — buildings, activities, organizations, phones
and organization–activity links after any read call equal those before it. -/
theorem read_operations_frame :
    ∀ (dist : Rat × Rat → Rat × Rat → Rat) (db : DB) (i j : Int)
      (skip limit : Nat) (lat lon r mina maxa minb maxb : Rat) (s : String),
      (get_building db i).2 = db ∧
      (get_buildings db skip limit).2 = db ∧
      (get_organization db j).2 = db ∧
      (get_organizations_in_building db i).2 = db ∧
      (get_organizations_by_activity db i).2 = db ∧
      (get_organizations_by_radius dist db lat lon r).2 = db ∧
      (get_organizations_by_bbox db mina maxa minb maxb).2 = db ∧
      (get_organizations_by_name db s).2 = db := by
  intro dist db i j skip limit lat lon r mina maxa minb maxb s
  refine ⟨rfl, rfl, rfl, rfl, ?_, rfl, rfl, rfl⟩
  unfold get_organizations_by_activity
  cases db.activities.find? (fun a => decide (a.id = i)) <;> rfl

/-- C3: whenever create_activity fails with a validation error, the data
state is unchanged — in particular the number of stored activities after the
failed call equals the number before it (the Python raise happens before
anything is added to the session). -/
theorem create_activity_error_frame (db : DB) (a : ActivityCreate) (e : String)
    (h : (create_activity db a).1 = Except.error e) :
    (create_activity db a).2 = db ∧
    (create_activity db a).2.activities.length = db.activities.length := by
  cases hc : create_activity_level db a with
  | error e2 => simp [create_activity, hc]
  | ok level => simp [create_activity, hc] at h

/-- Witness for create_activity_error_frame: creating an activity under the
nonexistent parent id 1 in the empty store fails with "Parent activity not
found" and leaves the store unchanged. -/
theorem create_activity_error_frame_witness :
    (create_activity emptyDB { name := "Мясо", parent_id := some 1 }).1 =
      Except.error "Parent activity not found" ∧
    (create_activity emptyDB { name := "Мясо", parent_id := some 1 }).2 = emptyDB :=
  ⟨rfl, (create_activity_error_frame emptyDB { name := "Мясо", parent_id := some 1 }
    "Parent activity not found" rfl).1⟩

/-- C2 (failing input): create_activity called with parent id 0 on the empty
store — where no activity with id 0 exists — does NOT fail with "parent not
found": the Python test `if activity.parent_id:` treats 0 as absent, skips
the parent lookup entirely, and persists an activity with parent reference 0
and level 0, contradicting the function's own docstring. -/
theorem create_activity_parent_zero_not_validated :
    (create_activity emptyDB { name := "Торговля", parent_id := some 0 }).1 =
      Except.ok { id := 1, name := "Торговля", parent_id := some 0, level := 0 } ∧
    emptyDB.activities = [] :=
  ⟨rfl, rfl⟩

/-- C4 (failing input): the state reached from the empty store by a single
create_activity call with parent id 0 is reachable, yet violates the spec's
activity invariant: it stores an activity whose parent reference is set
(to 0) but whose level is not any stored parent's level plus one, because no
activity with id 0 exists. -/
theorem reachable_state_violates_level_invariant :
    Reachable dbBug ∧ ¬ StrongLevelInv dbBug := by
  constructor
  · exact Reachable.activity emptyDB { name := "Торговля", parent_id := some 0 }
      Reachable.empty
  · intro h
    have hm : ({ id := 1, name := "Торговля", parent_id := some 0, level := 0 } :
        Activity) ∈ dbBug.activities := by decide
    obtain ⟨pa, hpam, hpaid, hlvl⟩ := (h _ hm).1
    have hlvl2 : 0 = pa.level + 1 := hlvl
    omega

/-- C9: for an activity id that matches no stored activity,
get_organizations_by_activity returns the empty list rather than an error. -/
theorem get_organizations_by_activity_missing (db : DB) (activity_id : Int)
    (h : ∀ a ∈ db.activities, a.id ≠ activity_id) :
    (get_organizations_by_activity db activity_id).1 = [] := by
  have hn : db.activities.find? (fun a => decide (a.id = activity_id)) = none := by
    rw [List.find?_eq_none]
    intro a ha
    simp [h a ha]
  simp [get_organizations_by_activity, hn]

/-- Witness for get_organizations_by_activity_missing: id 99 matches no
activity of the concrete store, and the query returns the empty list. -/
theorem get_organizations_by_activity_missing_witness :
    (get_organizations_by_activity dbTree 99).1 = [] :=
  get_organizations_by_activity_missing dbTree 99 (by decide)

/-- C1: for a stored activity found under the queried id,
get_organizations_by_activity returns exactly the organizations that the
link table links to that activity or to one of its transitive descendants
(`Desc`), each organization appearing at most once (by organization id).
The hypotheses are the spec's data invariant (stored child levels are parent
level plus one, levels capped at 2 — this is what bounds the recursion) and
distinctness of stored organization ids (primary keys). -/
theorem get_organizations_by_activity_spec (db : DB) (activity_id : Int)
    (hl : LevelInv db) (hb : ∀ a ∈ db.activities, a.level ≤ 2)
    (hnd : (db.organizations.map Organization.id).Nodup)
    (act : Activity)
    (hact : db.activities.find? (fun a => decide (a.id = activity_id)) = some act) :
    (∀ o, o ∈ (get_organizations_by_activity db activity_id).1 ↔
      o ∈ db.organizations ∧ ∃ l ∈ db.organization_activity,
        l.organization_id = o.id ∧ ∃ x, Desc db act x ∧ l.activity_id = x.id) ∧
    (((get_organizations_by_activity db activity_id).1.map Organization.id).Nodup) := by
  have hmem := List.mem_of_find?_eq_some hact
  have hbound := level_bound_of_cap db hb act hmem
  have hclosure := mem_getAllChildren db hl db.activities.length act hmem hbound
  have hres : (get_organizations_by_activity db activity_id).1 =
      db.organizations.filter (fun o =>
        db.organization_activity.any (fun l =>
          decide (l.organization_id = o.id) &&
          decide (l.activity_id ∈
            (getAllChildren db db.activities.length act).map Activity.id))) := by
    simp only [get_organizations_by_activity, hact]
  constructor
  · intro o
    rw [hres, List.mem_filter, List.any_eq_true]
    constructor
    · rintro ⟨ho, l, hlm, hl2⟩
      rw [Bool.and_eq_true, decide_eq_true_iff, decide_eq_true_iff] at hl2
      obtain ⟨hlo, hla⟩ := hl2
      rw [List.mem_map] at hla
      obtain ⟨x, hx, hxid⟩ := hla
      exact ⟨ho, l, hlm, hlo, x, (hclosure x).mp hx, hxid.symm⟩
    · rintro ⟨ho, l, hlm, hlo, x, hdx, hlx⟩
      refine ⟨ho, l, hlm, ?_⟩
      rw [Bool.and_eq_true, decide_eq_true_iff, decide_eq_true_iff]
      exact ⟨hlo, List.mem_map.mpr ⟨x, (hclosure x).mpr hdx, hlx.symm⟩⟩
  · rw [hres]
    exact List.Nodup.sublist (List.Sublist.map _ (List.filter_sublist _)) hnd

/-- Witness for get_organizations_by_activity_spec: in the concrete store,
querying by the root activity (id 1) returns the organization linked only to
its child activity (id 2). -/
theorem get_organizations_by_activity_spec_witness :
    orgAcme ∈ (get_organizations_by_activity dbTree 1).1 :=
  ((get_organizations_by_activity_spec dbTree 1 (by unfold LevelInv; decide)
      (by decide) (by decide)
      activityFood (by decide)).1 orgAcme).mpr
    ⟨by decide, { organization_id := 1, activity_id := 2 }, by decide, by decide,
      activityMeat, Relation.ReflTransGen.single ⟨by decide, by decide⟩, by decide⟩

/-- C5: the radius query returns exactly the organizations housed in a
building whose distance from the target point is at most `radius_km`
(inclusive boundary: the `≤` comparison keeps a building at exactly
`radius_km` and rejects any strictly larger distance), and for every
negative radius the result is empty.  Stated for every distance function
`dist`; nonnegativity — a property of geodesic distance — is the only
hypothesis, used for the negative-radius clause. -/
theorem get_organizations_by_radius_spec (dist : Rat × Rat → Rat × Rat → Rat)
    (hpos : ∀ p q, 0 ≤ dist p q) (db : DB) (lat lon radius_km : Rat) :
    (∀ o, o ∈ (get_organizations_by_radius dist db lat lon radius_km).1 ↔
      o ∈ db.organizations ∧ ∃ b ∈ db.buildings, o.building_id = b.id ∧
        dist (lat, lon) (b.latitude, b.longitude) ≤ radius_km) ∧
    (radius_km < 0 → (get_organizations_by_radius dist db lat lon radius_km).1 = []) := by
  have hmem : ∀ o, o ∈ (get_organizations_by_radius dist db lat lon radius_km).1 ↔
      o ∈ db.organizations ∧ ∃ b ∈ db.buildings, o.building_id = b.id ∧
        dist (lat, lon) (b.latitude, b.longitude) ≤ radius_km := by
    intro o
    simp only [get_organizations_by_radius, List.mem_filter, decide_eq_true_iff,
      List.mem_map, List.mem_filter]
    constructor
    · rintro ⟨ho, ⟨b, ⟨hbm, hbd⟩, hbid⟩⟩
      exact ⟨ho, b, hbm, hbid.symm, hbd⟩
    · rintro ⟨ho, b, hbm, hbid, hbd⟩
      exact ⟨ho, b, ⟨hbm, hbd⟩, hbid.symm⟩
  refine ⟨hmem, ?_⟩
  intro hneg
  rw [List.eq_nil_iff_forall_not_mem]
  intro o ho
  obtain ⟨-, b, -, -, hbd⟩ := (hmem o).mp ho
  have := hpos (lat, lon) (b.latitude, b.longitude)
  have : (0 : Rat) ≤ radius_km := le_trans this hbd
  exact absurd hneg (not_lt.mpr this)

/-- Witness for get_organizations_by_radius_spec: with the concrete taxicab
distance, a negative radius yields the empty result on the concrete store,
and a radius-0 query centred on building 1 returns the organization housed
there. -/
theorem get_organizations_by_radius_spec_witness :
    (get_organizations_by_radius distTaxi dbTree 0 0 (-1)).1 = [] ∧
    orgAcme ∈ (get_organizations_by_radius distTaxi dbTree 55 37 0).1 :=
  ⟨(get_organizations_by_radius_spec distTaxi
      (fun p q => add_nonneg (abs_nonneg _) (abs_nonneg _)) dbTree 0 0 (-1)).2
      (by norm_num),
   ((get_organizations_by_radius_spec distTaxi
      (fun p q => add_nonneg (abs_nonneg _) (abs_nonneg _)) dbTree 55 37 0).1
      orgAcme).mpr
    ⟨by decide, bldgMoscow, by decide, by decide, by norm_num [distTaxi, bldgMoscow]⟩⟩

/-- C6: the bounding-box query returns exactly the organizations whose
building lies inside the inclusive rectangle, and with a degenerate box
(equal min/max on both axes) exactly the organizations of buildings at that
exact coordinate. -/
theorem get_organizations_by_bbox_spec (db : DB) (min_lat max_lat min_lon max_lon : Rat) :
    (∀ o, o ∈ (get_organizations_by_bbox db min_lat max_lat min_lon max_lon).1 ↔
      o ∈ db.organizations ∧ ∃ b ∈ db.buildings, o.building_id = b.id ∧
        min_lat ≤ b.latitude ∧ b.latitude ≤ max_lat ∧
        min_lon ≤ b.longitude ∧ b.longitude ≤ max_lon) ∧
    (∀ o, o ∈ (get_organizations_by_bbox db min_lat min_lat min_lon min_lon).1 ↔
      o ∈ db.organizations ∧ ∃ b ∈ db.buildings, o.building_id = b.id ∧
        b.latitude = min_lat ∧ b.longitude = min_lon) := by
  have hgen : ∀ (la lb lc ld : Rat) o,
      o ∈ (get_organizations_by_bbox db la lb lc ld).1 ↔
      o ∈ db.organizations ∧ ∃ b ∈ db.buildings, o.building_id = b.id ∧
        la ≤ b.latitude ∧ b.latitude ≤ lb ∧ lc ≤ b.longitude ∧ b.longitude ≤ ld := by
    intro la lb lc ld o
    simp only [get_organizations_by_bbox, List.mem_filter, decide_eq_true_iff,
      List.mem_map, List.mem_filter, Bool.and_eq_true]
    constructor
    · rintro ⟨ho, ⟨b, ⟨hbm, ⟨⟨⟨h1, h2⟩, h3⟩, h4⟩⟩, hbid⟩⟩
      exact ⟨ho, b, hbm, hbid.symm, h1, h2, h3, h4⟩
    · rintro ⟨ho, b, hbm, hbid, h1, h2, h3, h4⟩
      exact ⟨ho, b, ⟨hbm, ⟨⟨⟨h1, h2⟩, h3⟩, h4⟩⟩, hbid.symm⟩
  refine ⟨hgen min_lat max_lat min_lon max_lon, ?_⟩
  intro o
  rw [hgen min_lat min_lat min_lon min_lon o]
  constructor
  · rintro ⟨ho, b, hbm, hbid, h1, h2, h3, h4⟩
    exact ⟨ho, b, hbm, hbid, le_antisymm h2 h1, le_antisymm h4 h3⟩
  · rintro ⟨ho, b, hbm, hbid, h1, h2⟩
    exact ⟨ho, b, hbm, hbid, le_of_eq h1.symm, le_of_eq h1, le_of_eq h2.symm, le_of_eq h2⟩

/-- C8: create_organization succeeds for every input (it is total — no
validation step can fail), and the created organization is linked through
the link table to exactly those of the given activity ids that resolve to a
stored activity; unresolvable ids are silently dropped.  The freshness
hypothesis says the store's next organization id is unused in the link
table, as auto-increment guarantees. -/
theorem create_organization_spec (db : DB) (inp : OrganizationCreate)
    (hfresh : ∀ l ∈ db.organization_activity,
      l.organization_id ≠ db.nextOrganizationId) :
    (create_organization db inp).1.name = inp.name ∧
    (create_organization db inp).1.building_id = inp.building_id ∧
    (create_organization db inp).2.organizations =
      db.organizations ++ [(create_organization db inp).1] ∧
    ∀ aid : Int,
      ({ organization_id := (create_organization db inp).1.id,
         activity_id := aid } : Link) ∈
          (create_organization db inp).2.organization_activity ↔
        (aid ∈ inp.activity_ids ∧ ∃ a ∈ db.activities, a.id = aid) := by
  refine ⟨rfl, rfl, rfl, ?_⟩
  intro aid
  simp only [create_organization, List.mem_append, List.mem_map, List.mem_filter,
    decide_eq_true_iff]
  constructor
  · rintro (hold | ⟨a, ⟨ham, hain⟩, heq⟩)
    · exact absurd rfl (hfresh _ hold)
    · have hid : a.id = aid := congrArg Link.activity_id heq
      rw [hid] at hain
      exact ⟨hain, a, ham, hid⟩
  · rintro ⟨hain, a, ham, hid⟩
    right
    exact ⟨a, ⟨ham, hid ▸ hain⟩, by rw [hid]⟩

/-- Witness for create_organization_spec: creating an organization in the
concrete store with activity ids [2, 99] — where 99 resolves to nothing —
links the new organization (id 3) to activity 2. -/
theorem create_organization_spec_witness :
    ({ organization_id := 3, activity_id := 2 } : Link) ∈
      (create_organization dbTree
        { name := "Новая", building_id := 5, phone_numbers := ["123"],
          activity_ids := [2, 99] }).2.organization_activity :=
  ((create_organization_spec dbTree
      { name := "Новая", building_id := 5, phone_numbers := ["123"],
        activity_ids := [2, 99] } (by decide)).2.2.2 2).mpr
    ⟨by decide, activityMeat, by decide, by decide⟩

/-- Helper: a pattern starting with `%` matches a text iff the rest of the
pattern matches some suffix of the text. -/
theorem likeMatch_percent (p : List Char) (t : List Char) :
    likeMatch ('%' :: p) t = true ↔ ∃ t2, t2 <:+ t ∧ likeMatch p t2 = true := by
  simp [likeMatch, List.any_eq_true, List.mem_tails]

/-- Helper: a wildcard-free pattern followed by a trailing `%` matches a
text iff the wildcard-free part is a prefix of the text. -/
theorem likeMatch_prefix_percent :
    ∀ (p : List Char), (∀ c ∈ p, c ≠ '%' ∧ c ≠ '_') →
      ∀ t, (likeMatch (p ++ ['%']) t = true ↔ p <+: t) := by
  intro p
  induction p with
  | nil =>
    intro _ t
    simp only [List.nil_append]
    rw [likeMatch_percent]
    constructor
    · intro _
      exact List.nil_prefix
    · intro _
      exact ⟨[], List.nil_suffix, rfl⟩
  | cons c p ih =>
    intro hp t
    have hc := hp c (List.mem_cons_self c p)
    have hp2 : ∀ d ∈ p, d ≠ '%' ∧ d ≠ '_' :=
      fun d hd => hp d (List.mem_cons_of_mem c hd)
    cases t with
    | nil =>
      rw [List.cons_append]
      constructor
      · intro h
        simp [likeMatch, hc.1] at h
      · intro h
        have h2 := List.prefix_nil.mp h
        simp at h2
    | cons d t =>
      rw [List.cons_append]
      have heq : likeMatch (c :: (p ++ ['%'])) (d :: t) =
          ((decide (c = '_') || decide (c = d)) && likeMatch (p ++ ['%']) t) := by
        simp [likeMatch, hc.1]
      rw [heq, Bool.and_eq_true, Bool.or_eq_true, decide_eq_true_iff,
        decide_eq_true_iff, ih hp2 t, List.cons_prefix_cons]
      constructor
      · rintro ⟨hcd | hcd, hpt⟩
        · exact absurd hcd hc.2
        · exact ⟨hcd, hpt⟩
      · rintro ⟨hcd, hpt⟩
        exact ⟨Or.inr hcd, hpt⟩

/-- Helper: the pattern `'%' ++ s ++ '%'` with wildcard-free `s` matches a
text iff `s` occurs inside the text. -/
theorem likeMatch_contains (s : List Char) (hs : ∀ c ∈ s, c ≠ '%' ∧ c ≠ '_')
    (t : List Char) :
    likeMatch ('%' :: (s ++ ['%'])) t = true ↔ s <:+: t := by
  rw [likeMatch_percent, List.infix_iff_prefix_suffix]
  constructor
  · rintro ⟨t2, hsuf, hm⟩
    exact ⟨t2, (likeMatch_prefix_percent s hs t2).mp hm, hsuf⟩
  · rintro ⟨u, hpre, hsuf⟩
    exact ⟨u, hsuf, (likeMatch_prefix_percent s hs u).mpr hpre⟩

/-- Helper: case folding never produces a LIKE wildcard from a
non-wildcard character. -/
theorem charLower_safe (c : Char) (h1 : c ≠ '%') (h2 : c ≠ '_') :
    charLower c ≠ '%' ∧ charLower c ≠ '_' := by
  unfold charLower
  cases hf : lowerPairs.find? (fun p => decide (p.1 = c)) with
  | none => simpa using ⟨h1, h2⟩
  | some pr =>
    have hm := List.mem_of_find?_eq_some hf
    have hall : ∀ q ∈ lowerPairs, q.2 ≠ '%' ∧ q.2 ≠ '_' := by decide
    simpa using hall pr hm

/-- Helper: case folding of a wildcard-free string is wildcard-free. -/
theorem sqlLower_safe (s : List Char) (hs : ∀ c ∈ s, c ≠ '%' ∧ c ≠ '_') :
    ∀ c ∈ sqlLower s, c ≠ '%' ∧ c ≠ '_' := by
  intro c hc
  rw [sqlLower, List.mem_map] at hc
  obtain ⟨d, hd, rfl⟩ := hc
  exact charLower_safe d (hs d hd).1 (hs d hd).2

/-- C7 (amended): for a search string free of the SQL LIKE metacharacters
`%`, `_` and the escape `\`, get_organizations_by_name returns exactly the
organizations whose name contains the search string case-insensitively
(lowercased search string occurs inside the lowercased name), and the empty
search string matches every organization. -/
theorem get_organizations_by_name_spec (db : DB) (s : String)
    (hs : ∀ c ∈ s.data, c ≠ '%' ∧ c ≠ '_' ∧ c ≠ '\\') :
    (∀ o, o ∈ (get_organizations_by_name db s).1 ↔
      o ∈ db.organizations ∧ sqlLower s.data <:+: sqlLower o.name.data) ∧
    (get_organizations_by_name db "").1 = db.organizations := by
  have hs2 : ∀ c ∈ s.data, c ≠ '%' ∧ c ≠ '_' :=
    fun c hc => ⟨(hs c hc).1, (hs c hc).2.1⟩
  have hsafe := sqlLower_safe s.data hs2
  have h37 : charLower '%' = '%' := rfl
  have hdata : ("%" ++ s ++ "%").data = '%' :: (s.data ++ ['%']) := by
    simp [String.data_append]
  have hlower : sqlLower ('%' :: (s.data ++ ['%'])) =
      '%' :: (sqlLower s.data ++ ['%']) := by
    simp [sqlLower, List.map_append, h37]
  have hfilter : ∀ o : Organization,
      ilikeTest o.name ("%" ++ s ++ "%") = true ↔
        sqlLower s.data <:+: sqlLower o.name.data := by
    intro o
    rw [ilikeTest, hdata, hlower]
    exact likeMatch_contains (sqlLower s.data) hsafe (sqlLower o.name.data)
  constructor
  · intro o
    simp only [get_organizations_by_name]
    rw [List.mem_filter, hfilter o]
  · simp only [get_organizations_by_name]
    rw [List.filter_eq_self]
    intro o _
    have hd0 : sqlLower ("%" ++ "" ++ "%").data =
        '%' :: (([] : List Char) ++ ['%']) := rfl
    rw [ilikeTest, hd0,
      likeMatch_contains [] (by simp) (sqlLower o.name.data)]
    exact List.nil_infix

/-- Witness for get_organizations_by_name_spec: searching "рога" finds the
organization named "ООО Рога и Копыта" (case-insensitive substring). -/
theorem get_organizations_by_name_spec_witness :
    orgAcme ∈ (get_organizations_by_name dbTree "рога").1 :=
  ((get_organizations_by_name_spec dbTree "рога" (by decide)).1 orgAcme).mpr
    ⟨by decide, by decide⟩

/-- C7 (counterexample to the claim as stated): the search string "a_c" —
interpolated unescaped into the ILIKE pattern — matches the organization
named "abc" because `_` is a single-character SQL wildcard, although "a_c"
is not a case-insensitive substring of "abc".  So the result is not exactly
the organizations whose name contains the search string. -/
theorem get_organizations_by_name_wildcard_counterexample :
    orgAbc ∈ (get_organizations_by_name dbAbc "a_c").1 ∧
    ¬ sqlLower ("a_c" : String).data <:+: sqlLower orgAbc.name.data := by
  constructor
  · decide
  · decide
